import Mathlib

/-!
Verification of the placement-exams orchestration core against its
specification. The Django models and the `ScoresOrchestration` class live in
`pe/models.py` and `pe/orchestration.py`, which are not among the provided
sources (only their migrations and tests are); those operations are therefore
modelled from the specification, with the test suite `test/test_orch.py` as a
behavioural cross-check. The summary report (`spe_report/summary.py`) is a
provided source and is embedded directly.
-/

namespace PE

/- Points in time are modelled as whole numbers of seconds since some epoch
(`Nat`); the source stores timezone-aware datetimes, but only ordering and
one-second increments matter for the properties below. -/

/-- One exam configuration, after migrations `0001_initial` and
`0002_auto_20200622_1053`: unique name, unique SA code, unique Canvas course
and assignment ids, owning report (foreign key), and the `default_time_filter`
added by migration 0002. -/
structure Exam where
  id : Nat
  name : String
  sa_code : String
  course_id : Nat
  assignment_id : Nat
  report_id : Nat
  default_time_filter : Nat
deriving Repr, DecidableEq

/-- One student's exam attempt, after migrations `0001_initial` and
`0002_auto_20200622_1053`: Canvas submission id (unique store-wide), student
uniqname, score, nullable submitted timestamp, non-null graded timestamp,
transmitted flag, and nullable transmitted timestamp (default `None`). -/
structure Submission where
  submission_id : Nat
  exam_id : Nat
  student_uniqname : String
  score : Int
  submitted_timestamp : Option Nat
  graded_timestamp : Nat
  transmitted : Bool
  transmitted_timestamp : Option Nat
deriving Repr, DecidableEq

/-- The `Submission` table of the store. -/
abbrev Store := List Submission

/-- The Submissions belonging to one exam (the `exam.submissions` related
manager). -/
def examSubmissions (exam : Exam) (store : Store) : List Submission :=
  store.filter (fun s => s.exam_id == exam.id)

/-- Modelled from the spec: the maximum grading timestamp among a list of
Submissions (`none` when the list is empty), as computed by the missing
`pe/orchestration.py` when the orchestration is constructed. -/
def latest_graded_dt : List Submission → Option Nat
  | [] => none
  | s :: rest =>
    match latest_graded_dt rest with
    | none => some s.graded_timestamp
    | some m => some (max s.graded_timestamp m)

/-- Modelled from the spec: `ScoresOrchestration.__init__` (missing from the
sources) sets `sub_time_filter` to the maximum grading timestamp among the
exam's existing Submissions plus one second, or to the exam's configured
`default_time_filter` verbatim when the exam has no Submissions. -/
def sub_time_filter (exam : Exam) (store : Store) : Nat :=
  match latest_graded_dt (examSubmissions exam store) with
  | none => exam.default_time_filter
  | some m => m + 1

theorem latest_graded_dt_eq_none {subs : List Submission} :
    latest_graded_dt subs = none ↔ subs = [] := by
  cases subs with
  | nil => simp [latest_graded_dt]
  | cons s rest =>
    simp only [latest_graded_dt]
    cases h : latest_graded_dt rest <;> simp

theorem latest_graded_dt_mem {subs : List Submission} {m : Nat}
    (h : latest_graded_dt subs = some m) :
    ∃ s, s ∈ subs ∧ s.graded_timestamp = m := by
  induction subs generalizing m with
  | nil => simp [latest_graded_dt] at h
  | cons s rest ih =>
    simp only [latest_graded_dt] at h
    cases hr : latest_graded_dt rest with
    | none =>
      rw [hr] at h
      simp at h
      exact ⟨s, List.mem_cons_self s rest, h⟩
    | some m' =>
      rw [hr] at h
      simp at h
      rcases Nat.le_total s.graded_timestamp m' with hle | hle
      · obtain ⟨t, ht, htm⟩ := ih hr
        exact ⟨t, List.mem_cons_of_mem s ht, by omega⟩
      · exact ⟨s, List.mem_cons_self s rest, by omega⟩

theorem latest_graded_dt_le {subs : List Submission} {m : Nat}
    (h : latest_graded_dt subs = some m) :
    ∀ s, s ∈ subs → s.graded_timestamp ≤ m := by
  induction subs generalizing m with
  | nil => simp
  | cons s rest ih =>
    intro t ht
    simp only [latest_graded_dt] at h
    cases hr : latest_graded_dt rest with
    | none =>
      rw [hr] at h
      simp at h
      rcases List.mem_cons.mp ht with rfl | htr
      · omega
      · exact absurd (latest_graded_dt_eq_none.mp hr ▸ htr) (List.not_mem_nil t)
    | some m' =>
      rw [hr] at h
      simp at h
      rcases List.mem_cons.mp ht with rfl | htr
      · omega
      · have := ih hr t htr
        omega

/-- C1: for an exam with at least one existing Submission (witnessed by a
Submission `s0` whose grading timestamp is maximal), the computed source-query
time filter equals that maximum grading timestamp plus exactly one second; for
an exam with no existing Submissions, the filter equals the exam's configured
default time filter exactly, with no increment. -/
theorem sub_time_filter_correct (exam : Exam) (store : Store) :
    (∀ s0, s0 ∈ examSubmissions exam store →
      (∀ s, s ∈ examSubmissions exam store →
        s.graded_timestamp ≤ s0.graded_timestamp) →
      sub_time_filter exam store = s0.graded_timestamp + 1) ∧
    (examSubmissions exam store = [] →
      sub_time_filter exam store = exam.default_time_filter) := by
  constructor
  · intro s0 hmem hmax
    cases h : latest_graded_dt (examSubmissions exam store) with
    | none =>
      have := latest_graded_dt_eq_none.mp h
      rw [this] at hmem
      exact absurd hmem (List.not_mem_nil s0)
    | some m =>
      have h1 : s0.graded_timestamp ≤ m := latest_graded_dt_le h s0 hmem
      obtain ⟨t, htmem, htm⟩ := latest_graded_dt_mem h
      have h2 : t.graded_timestamp ≤ s0.graded_timestamp := hmax t htmem
      have : m = s0.graded_timestamp := by omega
      simp [sub_time_filter, h, this]
  · intro hempty
    simp [sub_time_filter, hempty, latest_graded_dt]

/-- A two-submission exam used to exercise the theorems on concrete data
(mirrors fixture `test_01`/`test_04` shapes). -/
def potions_placement : Exam :=
  { id := 1, name := "Potions Placement", sa_code := "PP", course_id := 111111,
    assignment_id := 222222, report_id := 1, default_time_filter := 100 }

def sub_rweasley : Submission :=
  { submission_id := 123456, exam_id := 1, student_uniqname := "rweasley",
    score := 150, submitted_timestamp := some 400, graded_timestamp := 500,
    transmitted := false, transmitted_timestamp := none }

def sub_hgranger : Submission :=
  { submission_id := 123457, exam_id := 1, student_uniqname := "hgranger",
    score := 200, submitted_timestamp := some 900, graded_timestamp := 1000,
    transmitted := false, transmitted_timestamp := none }

theorem sub_time_filter_correct_witness :
    sub_time_filter potions_placement [sub_rweasley, sub_hgranger] = 1001 ∧
    sub_time_filter potions_placement [] =
      potions_placement.default_time_filter :=
  ⟨(sub_time_filter_correct potions_placement [sub_rweasley, sub_hgranger]).1
      sub_hgranger (by decide) (by decide),
    (sub_time_filter_correct potions_placement []).2 (by decide)⟩

/-- One raw submission payload from the source API: external submission id,
student uniqname, numeric score, optional submitted timestamp (absent when the
grade was entered manually), and the required graded timestamp. -/
structure SubDict where
  submission_id : Nat
  student_uniqname : String
  score : Int
  submitted_at : Option Nat
  graded_at : Nat
deriving Repr, DecidableEq

/-- One page of source-API results: the decoded payloads in the response body
and whether the response metadata carries a "next page" link. -/
structure Page where
  records : List SubDict
  next_link : Bool
deriving Repr, DecidableEq

/-- Modelled from the spec: `ScoresOrchestration.get_sub_dicts_for_exam`
(missing from the sources). Each element of `responses` is the outcome of one
`api_call_with_retries` invocation, in the order the collector issues them;
`none` models "no usable response after bounded retries". The collector stops
and returns what it has collected so far when a call fails, follows the
next-page link while one is present, and stops after a page without one. -/
def get_sub_dicts_for_exam : List (Option Page) → List SubDict
  | [] => []
  | none :: _ => []
  | some p :: rest =>
    p.records ++ (if p.next_link then get_sub_dicts_for_exam rest else [])

/-- C6: the pagination collector returns the concatenation of all pages'
records in page order, following next links until none is present; when the
retrying call for some page returns no usable response, the collector stops
and returns the records collected so far as a non-error partial result —
failure on the very first page yields the empty list. -/
theorem get_sub_dicts_pagination (ps : List Page) :
    (∀ q, q ∈ ps → q.next_link = true) →
    (∀ last, last.next_link = false →
      get_sub_dicts_for_exam ((ps ++ [last]).map some) =
        ((ps ++ [last]).map Page.records).flatten) ∧
    (∀ rest, get_sub_dicts_for_exam (ps.map some ++ none :: rest) =
      (ps.map Page.records).flatten) := by
  induction ps with
  | nil =>
    intro _
    constructor
    · intro last hlast
      simp [get_sub_dicts_for_exam, hlast]
    · intro rest
      simp [get_sub_dicts_for_exam]
  | cons p ps ih =>
    intro hnext
    have hp : p.next_link = true := hnext p (List.mem_cons_self p ps)
    have hps : ∀ q, q ∈ ps → q.next_link = true :=
      fun q hq => hnext q (List.mem_cons_of_mem p hq)
    constructor
    · intro last hlast
      have h2 := (ih hps).1 last hlast
      simp only [List.map_append, List.map_cons, List.map_nil,
        List.flatten_append] at h2
      simp [get_sub_dicts_for_exam, hp, h2]
    · intro rest
      have h2 := (ih hps).2 rest
      simp [get_sub_dicts_for_exam, hp, h2]

def page1 : Page := { records := [], next_link := true }

def page2 : Page :=
  { records := [{ submission_id := 444444, student_uniqname := "hpotter",
                  score := 125, submitted_at := some 1200, graded_at := 1300 }],
    next_link := false }

theorem get_sub_dicts_pagination_witness :
    get_sub_dicts_for_exam [some page1, some page2] = page2.records ∧
    get_sub_dicts_for_exam [some page1, none] = [] ∧
    get_sub_dicts_for_exam [none] = [] :=
  ⟨by
    have h := (get_sub_dicts_pagination [page1] (by decide)).1 page2 (by decide)
    simpa using h,
  by
    have h := (get_sub_dicts_pagination [page1] (by decide)).2 []
    simpa using h,
  by
    have h := (get_sub_dicts_pagination [] (by decide)).2 []
    simpa using h⟩

/-- Whether a Submission with the given Canvas submission id already exists in
the store (the check backing the duplicate-safe insert; the store enforces
uniqueness of `submission_id` across the whole table). -/
def hasSubmissionId (store : Store) (sid : Nat) : Bool :=
  store.any (fun s => s.submission_id == sid)

/-- The Submission record built from one raw payload for one exam: new records
start untransmitted with a null transmitted timestamp; a payload without a
submitted timestamp is stored with a null submitted timestamp; the required
graded timestamp is stored as given. -/
def subRecordOfDict (examId : Nat) (d : SubDict) : Submission :=
  { submission_id := d.submission_id, exam_id := examId,
    student_uniqname := d.student_uniqname, score := d.score,
    submitted_timestamp := d.submitted_at, graded_timestamp := d.graded_at,
    transmitted := false, transmitted_timestamp := none }

/-- Modelled from the spec: inserting one raw payload — a payload whose
external submission id already exists in the store creates no new row and
raises no error. -/
def createSubRecord (examId : Nat) (store : Store) (d : SubDict) : Store :=
  if hasSubmissionId store d.submission_id then store
  else store ++ [subRecordOfDict examId d]

/-- Modelled from the spec: `ScoresOrchestration.create_sub_records` (missing
from the sources), inserting the fetched payloads in order with the
duplicate-safe insert. -/
def create_sub_records (examId : Nat) (store : Store) (ds : List SubDict) :
    Store :=
  ds.foldl (createSubRecord examId) store

/-- Store-wide uniqueness of the external submission identifier. -/
def uniqueSubmissionIds (store : Store) : Prop :=
  (store.map Submission.submission_id).Nodup

instance (store : Store) : Decidable (uniqueSubmissionIds store) := by
  unfold uniqueSubmissionIds
  infer_instance

theorem hasSubmissionId_false_iff {store : Store} {sid : Nat} :
    hasSubmissionId store sid = false ↔
      sid ∉ store.map Submission.submission_id := by
  simp [hasSubmissionId, List.any_eq_true, List.mem_map]

theorem hasSubmissionId_createSubRecord_mono {examId : Nat} {store : Store}
    {d : SubDict} {sid : Nat} (h : hasSubmissionId store sid = true) :
    hasSubmissionId (createSubRecord examId store d) sid = true := by
  unfold createSubRecord
  split
  · exact h
  · simp only [hasSubmissionId, List.any_append] at h ⊢
    simp [h]

theorem hasSubmissionId_createSubRecord_self {examId : Nat} {store : Store}
    {d : SubDict} :
    hasSubmissionId (createSubRecord examId store d) d.submission_id = true := by
  unfold createSubRecord
  split
  · assumption
  · simp [hasSubmissionId, subRecordOfDict]

theorem create_sub_records_has_mono {examId : Nat} {sid : Nat}
    (ds : List SubDict) (store : Store)
    (h : hasSubmissionId store sid = true) :
    hasSubmissionId (create_sub_records examId store ds) sid = true := by
  induction ds generalizing store with
  | nil => exact h
  | cons d ds ih =>
    exact ih (createSubRecord examId store d)
      (hasSubmissionId_createSubRecord_mono h)

theorem create_sub_records_covers {examId : Nat} (ds : List SubDict)
    (store : Store) :
    ∀ d, d ∈ ds →
      hasSubmissionId (create_sub_records examId store ds) d.submission_id
        = true := by
  induction ds generalizing store with
  | nil => simp
  | cons d0 ds ih =>
    intro d hd
    rcases List.mem_cons.mp hd with rfl | hd
    · exact create_sub_records_has_mono ds (createSubRecord examId store d)
        hasSubmissionId_createSubRecord_self
    · exact ih (createSubRecord examId store d0) d hd

theorem create_sub_records_of_covered {examId : Nat} (ds : List SubDict)
    (store : Store) (h : ∀ d, d ∈ ds →
      hasSubmissionId store d.submission_id = true) :
    create_sub_records examId store ds = store := by
  induction ds with
  | nil => rfl
  | cons d ds ih =>
    have hd : hasSubmissionId store d.submission_id = true :=
      h d (List.mem_cons_self d ds)
    show create_sub_records examId (createSubRecord examId store d) ds = store
    rw [createSubRecord, if_pos hd]
    exact ih (fun d' hd' => h d' (List.mem_cons_of_mem d hd'))

theorem uniqueSubmissionIds_createSubRecord {examId : Nat} {store : Store}
    {d : SubDict} (h : uniqueSubmissionIds store) :
    uniqueSubmissionIds (createSubRecord examId store d) := by
  unfold createSubRecord
  split
  · exact h
  · rename_i hfresh
    rw [Bool.not_eq_true] at hfresh
    have hnot := hasSubmissionId_false_iff.mp hfresh
    unfold uniqueSubmissionIds at h ⊢
    rw [List.map_append]
    simp only [List.map_cons, List.map_nil, subRecordOfDict]
    rw [List.nodup_append]
    exact ⟨h, List.nodup_singleton _, by simpa using fun hmem => hnot hmem⟩

/-- C7: ingestion is idempotent by external submission id — ingesting the same
payload sequence a second time leaves the store unchanged (an already-present
id creates no new row and raises no error), and store-wide uniqueness of
`submission_id` is preserved by ingestion. -/
theorem create_sub_records_idempotent (examId : Nat) (store : Store)
    (ds : List SubDict) :
    create_sub_records examId (create_sub_records examId store ds) ds =
      create_sub_records examId store ds ∧
    (uniqueSubmissionIds store →
      uniqueSubmissionIds (create_sub_records examId store ds)) := by
  constructor
  · exact create_sub_records_of_covered ds (create_sub_records examId store ds)
      (create_sub_records_covers ds store)
  · intro h
    induction ds generalizing store with
    | nil => exact h
    | cons d ds ih =>
      exact ih (createSubRecord examId store d)
        (uniqueSubmissionIds_createSubRecord h)

def dict_hpotter : SubDict :=
  { submission_id := 444444, student_uniqname := "hpotter", score := 125,
    submitted_at := some 1200, graded_at := 1300 }

theorem create_sub_records_idempotent_witness :
    create_sub_records 2
        (create_sub_records 2 [] [dict_hpotter, dict_hpotter])
        [dict_hpotter, dict_hpotter] =
      create_sub_records 2 [] [dict_hpotter, dict_hpotter] ∧
    uniqueSubmissionIds (create_sub_records 2 [] [dict_hpotter, dict_hpotter]) :=
  ⟨(create_sub_records_idempotent 2 [] [dict_hpotter, dict_hpotter]).1,
    (create_sub_records_idempotent 2 [] [dict_hpotter, dict_hpotter]).2
      (by decide)⟩

/-- C8: a raw payload with an absent source submission timestamp (manual grade
entry) is stored as a Submission with a null submitted timestamp and no error
(`create_sub_records` is a total function); the grading timestamp is required
by the payload shape and stored non-null, exactly as given. -/
theorem create_sub_records_null_submitted (examId : Nat) (store : Store)
    (d : SubDict) (hfresh : hasSubmissionId store d.submission_id = false)
    (hnull : d.submitted_at = none) :
    create_sub_records examId store [d] =
      store ++ [subRecordOfDict examId d] ∧
    (subRecordOfDict examId d).submitted_timestamp = none ∧
    (subRecordOfDict examId d).graded_timestamp = d.graded_at := by
  refine ⟨?_, by simp [subRecordOfDict, hnull], by simp [subRecordOfDict]⟩
  show createSubRecord examId store d = store ++ [subRecordOfDict examId d]
  rw [createSubRecord, if_neg (by simp [hfresh])]

def dict_nlongbottom : SubDict :=
  { submission_id := 888888, student_uniqname := "nlongbottom", score := 500,
    submitted_at := none, graded_at := 2000 }

theorem create_sub_records_null_submitted_witness :
    create_sub_records 3 [] [dict_nlongbottom] =
      [subRecordOfDict 3 dict_nlongbottom] ∧
    (subRecordOfDict 3 dict_nlongbottom).submitted_timestamp = none ∧
    (subRecordOfDict 3 dict_nlongbottom).graded_timestamp = 2000 :=
  create_sub_records_null_submitted 3 [] dict_nlongbottom (by decide) (by decide)

/-- The untransmitted set of one exam: every Submission belonging to it with
`transmitted = false`, regardless of when it was created. -/
def untransmittedForExam (exam : Exam) (store : Store) : List Submission :=
  store.filter (fun s => s.exam_id == exam.id && s.transmitted == false)

/-- The response of one sink (M-Pathways) call: the HTTP status code and the
student identifiers the response body explicitly reports as successful
(absence of an explicit success is treated as failure). -/
structure SinkResponse where
  status_code : Nat
  success_uniqnames : List String
deriving Repr, DecidableEq

/-- Whether a sink call succeeded as a whole: any non-2xx status code is a
total call failure. -/
def sinkCallOk (resp : SinkResponse) : Bool :=
  decide (200 ≤ resp.status_code) && decide (resp.status_code < 300)

/-- The update written to one submission row on explicitly reported success:
`transmitted` becomes true and the transmitted timestamp is set to the
processing time. All other fields are kept. -/
def markTransmitted (procTime : Nat) (s : Submission) : Submission :=
  { s with transmitted := true, transmitted_timestamp := some procTime }

/-- Modelled from the spec: `ScoresOrchestration.send_scores` (missing from
the sources). One sink call carries the submissions `toSend`; on a non-2xx
status the store is left untouched; otherwise exactly the rows of this exam
that are in the call and whose student identifier is explicitly reported
successful are marked transmitted at the processing time `procTime`. -/
def send_scores (exam : Exam) (toSend : List Submission) (resp : SinkResponse)
    (procTime : Nat) (store : Store) : Store :=
  if sinkCallOk resp then
    store.map (fun s =>
      if s.exam_id == exam.id
          && toSend.any (fun t => t.submission_id == s.submission_id)
          && resp.success_uniqnames.contains s.student_uniqname
      then markTransmitted procTime s
      else s)
  else store

/-- C3: on a sink call that fails outright (non-2xx status code, e.g. 404),
no submission in the call is marked transmitted — the store is left exactly
unchanged, so every such submission keeps `transmitted = false` and its null
transmitted timestamp, and the untransmitted query of the next run selects it
again. -/
theorem send_scores_total_failure (exam : Exam) (toSend : List Submission)
    (resp : SinkResponse) (procTime : Nat) (store : Store)
    (hfail : sinkCallOk resp = false) :
    send_scores exam toSend resp procTime store = store ∧
    untransmittedForExam exam (send_scores exam toSend resp procTime store) =
      untransmittedForExam exam store := by
  have h : send_scores exam toSend resp procTime store = store := by
    rw [send_scores, if_neg]
    simp [hfail]
  exact ⟨h, by rw [h]⟩

def resp404 : SinkResponse := { status_code := 404, success_uniqnames := [] }

theorem send_scores_total_failure_witness :
    send_scores potions_placement [sub_rweasley] resp404 5000
        [sub_rweasley, sub_hgranger] = [sub_rweasley, sub_hgranger] ∧
    untransmittedForExam potions_placement
        (send_scores potions_placement [sub_rweasley] resp404 5000
          [sub_rweasley, sub_hgranger]) =
      untransmittedForExam potions_placement [sub_rweasley, sub_hgranger] :=
  send_scores_total_failure potions_placement [sub_rweasley] resp404 5000
    [sub_rweasley, sub_hgranger] (by decide)

theorem send_scores_length (exam : Exam) (toSend : List Submission)
    (resp : SinkResponse) (procTime : Nat) (store : Store) :
    (send_scores exam toSend resp procTime store).length = store.length := by
  rw [send_scores]
  split
  · exact List.length_map store _
  · rfl

theorem send_scores_get (exam : Exam) (toSend : List Submission)
    (resp : SinkResponse) (procTime : Nat) (store : Store)
    (hok : sinkCallOk resp = true) (i : Nat) (hi : i < store.length)
    (hi2 : i < (send_scores exam toSend resp procTime store).length) :
    (send_scores exam toSend resp procTime store).get ⟨i, hi2⟩ =
      (if (store.get ⟨i, hi⟩).exam_id == exam.id
          && toSend.any
            (fun t => t.submission_id == (store.get ⟨i, hi⟩).submission_id)
          && resp.success_uniqnames.contains
            (store.get ⟨i, hi⟩).student_uniqname
      then markTransmitted procTime (store.get ⟨i, hi⟩)
      else store.get ⟨i, hi⟩) := by
  simp only [send_scores, hok, if_true, List.get_eq_getElem] at hi2 ⊢
  simp [List.getElem_map]

/-- C4: on a sink call whose response reports a mix of per-student successes
and failures (2xx status), exactly the rows of this exam that are in the call
and whose student identifier is explicitly reported successful become
`transmitted = true` with the processing time — strictly after the call's
start — as transmitted timestamp; a row reported failed, a row outside the
call, and a row of a different exam (even with the same student identifier)
are all left exactly unchanged. -/
theorem send_scores_partial_success (exam : Exam) (toSend : List Submission)
    (resp : SinkResponse) (callStart procTime : Nat) (store : Store)
    (hok : sinkCallOk resp = true) (hts : callStart < procTime) :
    ∀ i (hi : i < store.length) (hi2 : i <
        (send_scores exam toSend resp procTime store).length),
      ((store.get ⟨i, hi⟩).exam_id = exam.id →
        (∃ t, t ∈ toSend ∧
          t.submission_id = (store.get ⟨i, hi⟩).submission_id) →
        (store.get ⟨i, hi⟩).student_uniqname ∈ resp.success_uniqnames →
        ((send_scores exam toSend resp procTime store).get
            ⟨i, hi2⟩).transmitted = true ∧
        ((send_scores exam toSend resp procTime store).get
            ⟨i, hi2⟩).transmitted_timestamp = some procTime ∧
        callStart < procTime) ∧
      ((store.get ⟨i, hi⟩).exam_id ≠ exam.id →
        (send_scores exam toSend resp procTime store).get ⟨i, hi2⟩ =
          store.get ⟨i, hi⟩) ∧
      ((store.get ⟨i, hi⟩).student_uniqname ∉ resp.success_uniqnames →
        (send_scores exam toSend resp procTime store).get ⟨i, hi2⟩ =
          store.get ⟨i, hi⟩) ∧
      ((∀ t, t ∈ toSend →
          t.submission_id ≠ (store.get ⟨i, hi⟩).submission_id) →
        (send_scores exam toSend resp procTime store).get ⟨i, hi2⟩ =
          store.get ⟨i, hi⟩) := by
  intro i hi hi2
  rw [send_scores_get exam toSend resp procTime store hok i hi hi2]
  refine ⟨?_, ?_, ?_, ?_⟩
  · intro hexam hin hsucc
    rw [if_pos]
    · exact ⟨rfl, rfl, hts⟩
    · simp only [Bool.and_eq_true, beq_iff_eq, List.any_eq_true]
      obtain ⟨t, htmem, htid⟩ := hin
      refine ⟨⟨hexam, t, htmem, by simp [htid]⟩, ?_⟩
      simpa using hsucc
  · intro hexam
    rw [if_neg]
    simp only [Bool.and_eq_true, beq_iff_eq]
    intro hcontra
    exact hexam hcontra.1.1
  · intro hsucc
    rw [if_neg]
    simp only [Bool.and_eq_true]
    intro hcontra
    exact hsucc (by simpa using hcontra.2)
  · intro hout
    rw [if_neg]
    simp only [Bool.and_eq_true, List.any_eq_true, beq_iff_eq]
    intro hcontra
    obtain ⟨t, htmem, htid⟩ := hcontra.1.2
    exact hout t htmem htid

def resp_mixed : SinkResponse :=
  { status_code := 200, success_uniqnames := ["rweasley"] }

theorem send_scores_partial_success_witness :
    ((send_scores potions_placement [sub_rweasley, sub_hgranger] resp_mixed
        6000 [sub_rweasley, sub_hgranger]).get ⟨0, by decide⟩).transmitted
      = true ∧
    ((send_scores potions_placement [sub_rweasley, sub_hgranger] resp_mixed
        6000 [sub_rweasley, sub_hgranger]).get
          ⟨0, by decide⟩).transmitted_timestamp = some 6000 ∧
    (send_scores potions_placement [sub_rweasley, sub_hgranger] resp_mixed
        6000 [sub_rweasley, sub_hgranger]).get ⟨1, by decide⟩ =
      sub_hgranger := by
  have h := send_scores_partial_success potions_placement
    [sub_rweasley, sub_hgranger] resp_mixed 5500 6000
    [sub_rweasley, sub_hgranger] (by decide) (by decide) 0 (by decide)
    (by decide)
  have h1 := h.1 (by decide) ⟨sub_rweasley, by decide⟩ (by decide)
  have h2 := send_scores_partial_success potions_placement
    [sub_rweasley, sub_hgranger] resp_mixed 5500 6000
    [sub_rweasley, sub_hgranger] (by decide) (by decide) 1 (by decide)
    (by decide)
  have h3 := h2.2.2.1 (by decide)
  exact ⟨h1.1, h1.2.1, by rw [h3]; decide⟩

/-- The number of submissions in a list carrying the given student
identifier. -/
def countName (subs : List Submission) (n : String) : Nat :=
  subs.countP (fun s => s.student_uniqname == n)

/-- Modelled from the spec: how the sender splits the untransmitted set into
sink calls. One sink call accepts several entries as long as the student
identifiers are distinct, so submissions whose student identifier is unique in
the set go out together in one batch call, while every submission whose
student identifier is shared with another untransmitted submission is sent in
its own call, sequentially. -/
def planCalls (subs : List Submission) : List (List Submission) :=
  let regular := subs.filter
    (fun s => countName subs s.student_uniqname == 1)
  let dups := subs.filter
    (fun s => !(countName subs s.student_uniqname == 1))
  (if regular.isEmpty then [] else [regular]) ++ dups.map (fun s => [s])

theorem countName_filter_le (p : Submission → Bool) (subs : List Submission)
    (n : String) : countName (subs.filter p) n ≤ countName subs n :=
  (List.filter_sublist subs).countP_le _

theorem flatten_map_singleton (l : List Submission) :
    (l.map (fun s => [s])).flatten = l := by
  induction l with
  | nil => rfl
  | cons a l ih => simp [ih]

/-- C5: when the untransmitted set contains submissions sharing a student
identifier, each such submission is planned as a separate sequential sink
call of its own; no planned call ever contains two entries with the same
student identifier; every submission of the set is sent in exactly one call
(the flattened plan is a permutation of the set); and a sink call leaves every
store row whose submission id is outside that call exactly unchanged, so each
submission is marked transmitted independently, based only on its own call's
outcome. -/
theorem duplicate_uniqnames_separate_calls (subs : List Submission) :
    (∀ s, s ∈ subs → 2 ≤ countName subs s.student_uniqname →
      [s] ∈ planCalls subs) ∧
    (∀ c, c ∈ planCalls subs →
      (c.map Submission.student_uniqname).Nodup) ∧
    List.Perm (planCalls subs).flatten subs ∧
    (∀ (exam : Exam) (call : List Submission) (resp : SinkResponse)
        (procTime : Nat) (store : Store) (i : Nat) (hi : i < store.length)
        (hi2 : i < (send_scores exam call resp procTime store).length),
      (∀ t, t ∈ call → t.submission_id ≠ (store.get ⟨i, hi⟩).submission_id) →
      (send_scores exam call resp procTime store).get ⟨i, hi2⟩ =
        store.get ⟨i, hi⟩) := by
  refine ⟨?_, ?_, ?_, ?_⟩
  · intro s hs hcount
    apply List.mem_append_right
    apply List.mem_map.mpr
    refine ⟨s, ?_, rfl⟩
    apply List.mem_filter.mpr
    refine ⟨hs, ?_⟩
    simp only [Bool.not_eq_eq_eq_not, Bool.not_true, beq_eq_false_iff_ne]
    omega
  · intro c hc
    rcases List.mem_append.mp hc with hreg | hdup
    · have hcreg : c = subs.filter
          (fun s => countName subs s.student_uniqname == 1) := by
        by_cases hemp : (subs.filter
            (fun s => countName subs s.student_uniqname == 1)).isEmpty
        · simp [hemp] at hreg
        · simp [hemp] at hreg
          exact hreg
      subst hcreg
      rw [List.nodup_iff_count_le_one]
      intro n
      rw [List.count_eq_countP, List.countP_map]
      by_cases hpos : 0 < countName
          (subs.filter (fun s => countName subs s.student_uniqname == 1)) n
      · obtain ⟨s, hsmem, hsn⟩ := List.countP_pos_iff.mp hpos
        have hsn' : s.student_uniqname = n := by simpa using hsn
        have h1 : countName subs s.student_uniqname = 1 := by
          have := (List.mem_filter.mp hsmem).2
          simpa using this
        have h2 : countName
            (subs.filter (fun s => countName subs s.student_uniqname == 1)) n
              ≤ countName subs n :=
          countName_filter_le _ subs n
        rw [hsn'] at h1
        have : countName subs n = 1 := h1
        calc List.countP
              (fun x => (fun a => a == n) (Submission.student_uniqname x))
              (subs.filter (fun s => countName subs s.student_uniqname == 1))
            = countName
              (subs.filter (fun s => countName subs s.student_uniqname == 1))
              n := rfl
          _ ≤ countName subs n := h2
          _ ≤ 1 := by omega
      · have : countName
            (subs.filter (fun s => countName subs s.student_uniqname == 1)) n
              = 0 := by omega
        calc List.countP
              (fun x => (fun a => a == n) (Submission.student_uniqname x))
              (subs.filter (fun s => countName subs s.student_uniqname == 1))
            = countName
              (subs.filter (fun s => countName subs s.student_uniqname == 1))
              n := rfl
          _ ≤ 1 := by omega
    · obtain ⟨s, _, rfl⟩ := List.mem_map.mp hdup
      simp
  · rw [planCalls]
    simp only [List.flatten_append, flatten_map_singleton]
    by_cases hemp : (subs.filter
        (fun s => countName subs s.student_uniqname == 1)).isEmpty
    · rw [if_pos hemp]
      have hnil : subs.filter
          (fun s => countName subs s.student_uniqname == 1) = [] :=
        List.isEmpty_iff.mp hemp
      have hperm := List.filter_append_perm
        (fun s => countName subs s.student_uniqname == 1) subs
      rw [hnil] at hperm
      simpa using hperm
    · rw [if_neg hemp]
      simpa using List.filter_append_perm
        (fun s => countName subs s.student_uniqname == 1) subs
  · intro exam call resp procTime store i hi hi2 hout
    cases hok : sinkCallOk resp with
    | false =>
      have heq : send_scores exam call resp procTime store = store := by
        rw [send_scores, if_neg]
        simp [hok]
      exact List.get_of_eq heq ⟨i, hi2⟩
    | true =>
      rw [send_scores_get exam call resp procTime store hok i hi hi2]
      rw [if_neg]
      simp only [Bool.and_eq_true, List.any_eq_true, beq_iff_eq]
      intro hcontra
      obtain ⟨t, htmem, htid⟩ := hcontra.1.2
      exact hout t htmem htid

def sub_hgranger_retake : Submission :=
  { submission_id := 123459, exam_id := 1, student_uniqname := "hgranger",
    score := 210, submitted_timestamp := some 1900, graded_timestamp := 2000,
    transmitted := false, transmitted_timestamp := none }

theorem duplicate_uniqnames_separate_calls_witness :
    [sub_hgranger] ∈
      planCalls [sub_rweasley, sub_hgranger, sub_hgranger_retake] ∧
    List.Perm
      (planCalls [sub_rweasley, sub_hgranger, sub_hgranger_retake]).flatten
      [sub_rweasley, sub_hgranger, sub_hgranger_retake] ∧
    (send_scores potions_placement [sub_hgranger] resp_mixed 6000
      [sub_rweasley, sub_hgranger_retake]).get ⟨0, by decide⟩ =
        sub_rweasley := by
  have h := duplicate_uniqnames_separate_calls
    [sub_rweasley, sub_hgranger, sub_hgranger_retake]
  refine ⟨h.1 sub_hgranger (by decide) (by decide), h.2.2.1, ?_⟩
  have h4 := h.2.2.2 potions_placement [sub_hgranger] resp_mixed 6000
    [sub_rweasley, sub_hgranger_retake] 0 (by decide) (by decide) (by decide)
  rw [h4]
  decide

/-- One sink-call outcome: the response received and the processing time at
which the sender reconciles it. -/
structure CallOutcome where
  resp : SinkResponse
  procTime : Nat
deriving Repr, DecidableEq

/-- Modelled from the spec: the send loop — the planned calls are issued
sequentially, the k-th call reconciled against the k-th outcome. -/
def runCalls (exam : Exam) :
    List (List Submission × CallOutcome) → Store → Store
  | [], store => store
  | (call, o) :: rest, store =>
      runCalls exam rest (send_scores exam call o.resp o.procTime store)

/-- Modelled from the spec: SelectAndSend — select the exam's entire
untransmitted set, split it into the planned calls, and send them. -/
def selectAndSend (exam : Exam) (outcomes : List CallOutcome)
    (store : Store) : Store :=
  runCalls exam
    ((planCalls (untransmittedForExam exam store)).zip outcomes) store

/-- The selection SelectAndSend operates on during a run of `main`: the whole
untransmitted set of the exam, computed after ingestion has completed. -/
def mainSelection (exam : Exam) (responses : List (Option Page))
    (store : Store) : List Submission :=
  untransmittedForExam exam
    (create_sub_records exam.id store (get_sub_dicts_for_exam responses))

/-- Modelled from the spec: `ScoresOrchestration.main` (missing from the
sources) — one exam run, ComputeFilter → Fetch → Ingest → SelectAndSend, in
that order; the fetched pages are ingested before the untransmitted set is
selected and sent. -/
def main (exam : Exam) (responses : List (Option Page))
    (outcomes : List CallOutcome) (store : Store) : Store :=
  selectAndSend exam outcomes
    (create_sub_records exam.id store (get_sub_dicts_for_exam responses))

theorem create_sub_records_preserves_mem {examId : Nat} {s : Submission}
    (ds : List SubDict) (store : Store) (h : s ∈ store) :
    s ∈ create_sub_records examId store ds := by
  induction ds generalizing store with
  | nil => exact h
  | cons d ds ih =>
    apply ih
    rw [createSubRecord]
    split
    · exact h
    · exact List.mem_append_left _ h

theorem hasSubmissionId_createSubRecord_other {examId : Nat} {store : Store}
    {d : SubDict} {sid : Nat} (hne : d.submission_id ≠ sid) :
    hasSubmissionId (createSubRecord examId store d) sid =
      hasSubmissionId store sid := by
  rw [createSubRecord]
  split
  · rfl
  · simp [hasSubmissionId, List.any_append, subRecordOfDict, hne]

theorem create_sub_records_creates (examId : Nat) {sid : Nat}
    (ds : List SubDict) (store : Store)
    (hfresh : hasSubmissionId store sid = false)
    (hin : ∃ d, d ∈ ds ∧ d.submission_id = sid) :
    ∃ s, s ∈ create_sub_records examId store ds ∧ s.submission_id = sid ∧
      s.exam_id = examId ∧ s.transmitted = false ∧
      s.transmitted_timestamp = none := by
  induction ds generalizing store with
  | nil => simp at hin
  | cons d0 ds ih =>
    by_cases hd0 : d0.submission_id = sid
    · have hstep : createSubRecord examId store d0 =
          store ++ [subRecordOfDict examId d0] := by
        rw [createSubRecord, if_neg]
        rw [hd0, hfresh]
        simp
      refine ⟨subRecordOfDict examId d0, ?_, by simp [subRecordOfDict, hd0],
        by simp [subRecordOfDict], by simp [subRecordOfDict],
        by simp [subRecordOfDict]⟩
      show subRecordOfDict examId d0 ∈
        create_sub_records examId (createSubRecord examId store d0) ds
      exact create_sub_records_preserves_mem ds _
        (hstep ▸ List.mem_append_right _ (List.mem_singleton.mpr rfl))
    · obtain ⟨d, hd, hdsid⟩ := hin
      have hd' : d ∈ ds := by
        rcases List.mem_cons.mp hd with rfl | h
        · exact absurd hdsid hd0
        · exact h
      have hfresh' : hasSubmissionId (createSubRecord examId store d0) sid
          = false := by
        rw [hasSubmissionId_createSubRecord_other hd0]
        exact hfresh
      exact ih (createSubRecord examId store d0) hfresh' ⟨d, hd', hdsid⟩

/-- C2: transmission selection in a run of `main` operates over the exam's
entire untransmitted set — every Submission of the exam already untransmitted
before the run and every submission freshly ingested during the run are both
in the selection — and structurally, ingestion of the fetched pages fully
completes before the selection is computed and sent, so a submission ingested
this run is eligible for transmission in the same run. -/
theorem main_selection_complete (exam : Exam)
    (responses : List (Option Page)) (outcomes : List CallOutcome)
    (store : Store) :
    (∀ s, s ∈ store → s.exam_id = exam.id → s.transmitted = false →
      s ∈ mainSelection exam responses store) ∧
    (∀ d, d ∈ get_sub_dicts_for_exam responses →
      hasSubmissionId store d.submission_id = false →
      ∃ s, s ∈ mainSelection exam responses store ∧
        s.submission_id = d.submission_id ∧ s.exam_id = exam.id ∧
        s.transmitted = false) ∧
    main exam responses outcomes store =
      runCalls exam
        ((planCalls (mainSelection exam responses store)).zip outcomes)
        (create_sub_records exam.id store
          (get_sub_dicts_for_exam responses)) := by
  refine ⟨?_, ?_, rfl⟩
  · intro s hs hexam htrans
    apply List.mem_filter.mpr
    refine ⟨create_sub_records_preserves_mem _ store hs, ?_⟩
    simp [hexam, htrans]
  · intro d hd hfresh
    obtain ⟨s, hsmem, hsid, hsexam, hstrans, _⟩ :=
      create_sub_records_creates exam.id
        (get_sub_dicts_for_exam responses) store hfresh
        ⟨d, hd, rfl⟩
    refine ⟨s, ?_, hsid, hsexam, hstrans⟩
    apply List.mem_filter.mpr
    exact ⟨hsmem, by simp [hsexam, hstrans]⟩

def sub_old_untransmitted : Submission :=
  { submission_id := 123460, exam_id := 2, student_uniqname := "nlongbottom",
    score := 300, submitted_timestamp := some 100, graded_timestamp := 200,
    transmitted := false, transmitted_timestamp := none }

def potions_validation : Exam :=
  { id := 2, name := "Potions Validation", sa_code := "PV",
    course_id := 333333, assignment_id := 444444, report_id := 1,
    default_time_filter := 100 }

theorem main_selection_complete_witness :
    sub_old_untransmitted ∈
      mainSelection potions_validation
        [some { records := [dict_hpotter], next_link := false }]
        [sub_old_untransmitted] ∧
    (∃ s, s ∈ mainSelection potions_validation
        [some { records := [dict_hpotter], next_link := false }]
        [sub_old_untransmitted] ∧
      s.submission_id = dict_hpotter.submission_id ∧
      s.exam_id = potions_validation.id ∧ s.transmitted = false) := by
  have h := main_selection_complete potions_validation
    [some { records := [dict_hpotter], next_link := false }] []
    [sub_old_untransmitted]
  exact ⟨h.1 sub_old_untransmitted (by decide) (by decide) (by decide),
    h.2.1 dict_hpotter (by decide) (by decide)⟩

theorem send_scores_mem (exam : Exam) (call : List Submission)
    (resp : SinkResponse) (procTime : Nat) {store : Store} {s : Submission}
    (h : s ∈ store) :
    ∃ s', s' ∈ send_scores exam call resp procTime store ∧
      s'.submission_id = s.submission_id ∧
      (s.transmitted = true → s'.transmitted = true) := by
  rw [send_scores]
  split
  · refine ⟨if s.exam_id == exam.id
        && call.any (fun t => t.submission_id == s.submission_id)
        && resp.success_uniqnames.contains s.student_uniqname
      then markTransmitted procTime s else s, List.mem_map_of_mem _ h, ?_⟩
    split
    · exact ⟨rfl, fun _ => rfl⟩
    · exact ⟨rfl, fun h => h⟩
  · exact ⟨s, h, rfl, fun h => h⟩

theorem runCalls_mem {exam : Exam}
    (calls : List (List Submission × CallOutcome)) (store : Store)
    {s : Submission} (h : s ∈ store) :
    ∃ s', s' ∈ runCalls exam calls store ∧
      s'.submission_id = s.submission_id ∧
      (s.transmitted = true → s'.transmitted = true) := by
  induction calls generalizing store s with
  | nil => exact ⟨s, h, rfl, fun h => h⟩
  | cons c rest ih =>
    obtain ⟨s1, hs1, hid1, htr1⟩ :=
      send_scores_mem exam c.1 c.2.resp c.2.procTime h
    obtain ⟨s2, hs2, hid2, htr2⟩ := ih _ hs1
    exact ⟨s2, hs2, by rw [hid2, hid1], fun ht => htr2 (htr1 ht)⟩

/-- C9: the Submission lifecycle. A record created by the Ingestor starts with
`transmitted = false` and a null transmitted timestamp; ingestion leaves every
pre-existing row in the store exactly as it was (it never mutates the
transmission state and deletes nothing); the Sender only ever changes the
`transmitted` flag and transmitted timestamp of a row — every other field is
preserved — and only from false to true, never reverting a transmitted row;
and a whole orchestration run deletes no Submission: every row of the store
survives (by its unique submission id) with its transmitted flag never
reverted. -/
theorem submission_lifecycle :
    (∀ (examId : Nat) (d : SubDict),
      (subRecordOfDict examId d).transmitted = false ∧
      (subRecordOfDict examId d).transmitted_timestamp = none) ∧
    (∀ (examId : Nat) (ds : List SubDict) (store : Store) (s : Submission),
      s ∈ store → s ∈ create_sub_records examId store ds) ∧
    (∀ (exam : Exam) (call : List Submission) (resp : SinkResponse)
        (procTime : Nat) (store : Store) (i : Nat) (hi : i < store.length)
        (hi2 : i < (send_scores exam call resp procTime store).length),
      ((send_scores exam call resp procTime store).get
          ⟨i, hi2⟩).submission_id = (store.get ⟨i, hi⟩).submission_id ∧
      ((send_scores exam call resp procTime store).get
          ⟨i, hi2⟩).exam_id = (store.get ⟨i, hi⟩).exam_id ∧
      ((send_scores exam call resp procTime store).get
          ⟨i, hi2⟩).student_uniqname = (store.get ⟨i, hi⟩).student_uniqname ∧
      ((send_scores exam call resp procTime store).get
          ⟨i, hi2⟩).score = (store.get ⟨i, hi⟩).score ∧
      ((send_scores exam call resp procTime store).get
          ⟨i, hi2⟩).submitted_timestamp =
        (store.get ⟨i, hi⟩).submitted_timestamp ∧
      ((send_scores exam call resp procTime store).get
          ⟨i, hi2⟩).graded_timestamp = (store.get ⟨i, hi⟩).graded_timestamp ∧
      ((store.get ⟨i, hi⟩).transmitted = true →
        ((send_scores exam call resp procTime store).get
          ⟨i, hi2⟩).transmitted = true)) ∧
    (∀ (exam : Exam) (responses : List (Option Page))
        (outcomes : List CallOutcome) (store : Store) (s : Submission),
      s ∈ store →
      ∃ s', s' ∈ main exam responses outcomes store ∧
        s'.submission_id = s.submission_id ∧
        (s.transmitted = true → s'.transmitted = true)) := by
  refine ⟨?_, ?_, ?_, ?_⟩
  · intro examId d
    exact ⟨rfl, rfl⟩
  · intro examId ds store s hs
    exact create_sub_records_preserves_mem ds store hs
  · intro exam call resp procTime store i hi hi2
    cases hok : sinkCallOk resp with
    | false =>
      have heq : send_scores exam call resp procTime store = store := by
        rw [send_scores, if_neg]
        simp [hok]
      rw [List.get_of_eq heq ⟨i, hi2⟩]
      exact ⟨rfl, rfl, rfl, rfl, rfl, rfl, fun h => h⟩
    | true =>
      rw [send_scores_get exam call resp procTime store hok i hi hi2]
      split
      · exact ⟨rfl, rfl, rfl, rfl, rfl, rfl, fun _ => rfl⟩
      · exact ⟨rfl, rfl, rfl, rfl, rfl, rfl, fun h => h⟩
  · intro exam responses outcomes store s hs
    exact runCalls_mem _ _
      (create_sub_records_preserves_mem (get_sub_dicts_for_exam responses)
        store hs)

def sub_transmitted_already : Submission :=
  { submission_id := 123461, exam_id := 1, student_uniqname := "hpotter",
    score := 50, submitted_timestamp := some 80, graded_timestamp := 90,
    transmitted := true, transmitted_timestamp := some 95 }

theorem submission_lifecycle_witness :
    (subRecordOfDict 3 dict_nlongbottom).transmitted = false ∧
    sub_transmitted_already ∈
      create_sub_records 1 [sub_transmitted_already] [dict_hpotter] ∧
    ((send_scores potions_placement [sub_transmitted_already] resp_mixed 6000
        [sub_transmitted_already]).get ⟨0, by decide⟩).score =
      sub_transmitted_already.score ∧
    (∃ s', s' ∈ main potions_placement [] [] [sub_transmitted_already] ∧
      s'.submission_id = sub_transmitted_already.submission_id ∧
      (sub_transmitted_already.transmitted = true →
        s'.transmitted = true)) := by
  refine ⟨(submission_lifecycle.1 3 dict_nlongbottom).1,
    submission_lifecycle.2.1 1 [dict_hpotter] [sub_transmitted_already]
      sub_transmitted_already (by decide), ?_, ?_⟩
  · have h := submission_lifecycle.2.2.1 potions_placement
      [sub_transmitted_already] resp_mixed 6000 [sub_transmitted_already]
      0 (by decide) (by decide)
    rw [h.2.2.2.1]
    rfl
  · exact submission_lifecycle.2.2.2 potions_placement [] []
      [sub_transmitted_already] sub_transmitted_already (by decide)

/- ===== spe_report/summary.py (provided source, embedded directly) ===== -/

/-- A Python exception, as far as `SPESummaryReport` can raise one: an
`AttributeError` from reading a never-assigned attribute, or an
`SMTPException` from the mail library. -/
inductive PyError where
  | attributeError (attr : String)
  | smtpException (msg : String)
deriving Repr, DecidableEq

/-- A Python dict of strings, as the report renders them into f-strings. -/
abbrev PyDict := List (String × String)

/-- One entry of the sent / not-sent score lists, with exactly the keys
`email_msg` reads (`user`, `score`, `local_submitted_date`). -/
structure ScoreItem where
  user : String
  score : String
  local_submitted_date : String
deriving Repr, DecidableEq

/-- A score-list dict keyed by the `PLACEMENT` and `VALIDATION` constants. -/
structure ScoreLists where
  placement : List ScoreItem
  validation : List ScoreItem
deriving Repr, DecidableEq

/-- The state of an `SPESummaryReport` object. Every field except
`next_stored_persisted_date` is assigned by `__init__`; for the timing fields
`none` models the Python value `None` that `__init__` assigns. The field
`next_stored_persisted_date` models attribute presence: `__init__` never
assigns that attribute, so `none` means "never assigned" (reading it raises
`AttributeError`), and `some d` models an external assignment of a dict. -/
structure SPESummaryReport where
  stored_persisted_date : PyDict
  ext_stored_persisted_date : PyDict
  used_query_date : PyDict
  start_time : Option String
  end_time : Option String
  elapsed_time : Option String
  full_score_list : ScoreLists
  sent_score_list : ScoreLists
  not_sent_scores_list : ScoreLists
  course_id : PyDict
  next_stored_persisted_date : Option PyDict
deriving Repr, DecidableEq

/-- `SPESummaryReport.__init__`: empty dicts and score lists, `None` timing
fields — and no assignment at all to `next_stored_persisted_date`. -/
def SPESummaryReport.init : SPESummaryReport :=
  { stored_persisted_date := [], ext_stored_persisted_date := [],
    used_query_date := [], start_time := none, end_time := none,
    elapsed_time := none, full_score_list := ⟨[], []⟩,
    sent_score_list := ⟨[], []⟩, not_sent_scores_list := ⟨[], []⟩,
    course_id := [], next_stored_persisted_date := none }

/-- How Python renders an optional string in an f-string (`None` when the
value is the `None` object). -/
def renderOptStr : Option String → String
  | none => "None"
  | some s => s

/-- Abstraction of Python's dict repr inside an f-string (key/value pairs in
braces; quoting of keys is abstracted away — no property below depends on the
exact rendering). -/
def renderPyDict (d : PyDict) : String :=
  "\x7b" ++ String.intercalate ", "
    (d.map (fun kv => kv.1 ++ ": " ++ kv.2)) ++ "\x7d"

/-- `SPESummaryReport.get_subject`, with `datetime.now()` passed in as the
pre-rendered string `now`. -/
def SPESummaryReport.get_subject (r : SPESummaryReport) (now : String) :
    String :=
  "P(" ++ toString r.sent_score_list.placement.length ++ "/" ++
    toString r.full_score_list.placement.length ++ "):V(" ++
    toString r.sent_score_list.validation.length ++ "/" ++
    toString r.full_score_list.validation.length ++ ") " ++
    "Spanish Placement Exam Processing Summary " ++ now

/-- `SPESummaryReport.email_report`: builds the summary body. The f-string
reads `self.next_stored_persisted_date`, an attribute `__init__` never
assigns; reading a never-assigned attribute raises `AttributeError`, modelled
as `Except.error`. All other attributes it reads are assigned by
`__init__`. -/
def SPESummaryReport.email_report (r : SPESummaryReport) :
    Except PyError String :=
  match r.next_stored_persisted_date with
  | none => Except.error (PyError.attributeError "next_stored_persisted_date")
  | some nextd => Except.ok
      ("\n        Summary of Spanish Placement Exam processing.  \n" ++
       "        This report includes the report runtimes, the cutoff times" ++
       " used for querying for new users, and counts of users added and" ++
       " errors.\n" ++
       "        The subject line of the corresponding email summarizes the" ++
       " scores added/received as (n/n) for Placement/Validation tests.\n" ++
       "        \n" ++
       "        starting time: " ++ renderOptStr r.start_time ++ "\n" ++
       "        end time: " ++ renderOptStr r.end_time ++ "\n" ++
       "        elapsed time: " ++ renderOptStr r.elapsed_time ++ "\n\n" ++
       "        storedTestLastTakenTime: " ++
         renderPyDict r.stored_persisted_date ++ "\n" ++
       "        useTestLastTakenTime: " ++
         renderPyDict r.used_query_date ++ "\n" ++
       "        updatedTestLastTakenTime: " ++ renderPyDict nextd ++
       "\n        \n        \n" ++
       "        course_id: " ++ renderPyDict r.course_id ++
       "\n        \n         ")

/-- One `user: ...  score: ...  finished_at: ...` line of `email_msg`. -/
def scoreItemLine (item : ScoreItem) : String :=
  "user: " ++ item.user ++ "  score: " ++ item.score ++
    "  finished_at: " ++ item.local_submitted_date

/-- `SPESummaryReport.email_msg`: appends `email_report()` first — so an
`AttributeError` raised there propagates — then the per-kind success and
failure sections. -/
def SPESummaryReport.email_msg (r : SPESummaryReport) :
    Except PyError (List String) :=
  match r.email_report with
  | Except.error e => Except.error e
  | Except.ok body =>
    Except.ok
      ([body] ++
       ["Placement user scores added: " ++
          toString r.sent_score_list.placement.length ++ " failed: " ++
          toString r.not_sent_scores_list.placement.length] ++
       (if r.sent_score_list.placement.isEmpty then [] else
          ["Placement Success users List:"] ++
            r.sent_score_list.placement.map scoreItemLine ++ ["\n"]) ++
       (if r.not_sent_scores_list.placement.isEmpty then [] else
          ["Failed sending Placement scores below, will try in the next run"]
            ++ r.not_sent_scores_list.placement.map scoreItemLine ++ ["\n"])
       ++
       ["Validation user scores added: " ++
          toString r.sent_score_list.validation.length ++ " failed: " ++
          toString r.not_sent_scores_list.validation.length] ++
       (if r.sent_score_list.validation.isEmpty then [] else
          ["Validation Success users List:"] ++
            r.sent_score_list.validation.map scoreItemLine ++ ["\n"]) ++
       (if r.not_sent_scores_list.validation.isEmpty then [] else
          ["Failed sending Validation scores below, will try in the next run"]
            ++ r.not_sent_scores_list.validation.map scoreItemLine ++ ["\n"]))

/-- `SPESummaryReport.is_any_scores_received`. -/
def SPESummaryReport.is_any_scores_received (r : SPESummaryReport) : Bool :=
  !r.full_score_list.placement.isEmpty ||
    !r.full_score_list.validation.isEmpty

/-- `SPESummaryReport.send_email`: the try block creates the SMTP connection,
builds the message text from `email_msg()` and the subject from
`get_subject()`, and sends it; the except clause catches only
`SMTPException`, logging it and returning normally, so any other exception —
in particular the `AttributeError` raised inside `email_msg` — propagates to
the caller. The SMTP collaborator's behaviour is passed in: `connect` and
`send` are the outcomes of `SMTP(host, port)` and `send_message(msg)`. -/
def SPESummaryReport.send_email (r : SPESummaryReport)
    (connect : Except PyError Unit) (send : Except PyError Unit)
    (now : String) : Except PyError Unit :=
  let tryBlock : Except PyError Unit := do
    let _u ← connect
    let lines ← r.email_msg
    let _body := String.intercalate "\n" lines
    let _subject := r.get_subject now
    let _u2 ← send
    pure ()
  match tryBlock with
  | Except.error (PyError.smtpException _) => Except.ok ()
  | other => other

/-- C10: for every SPESummaryReport on which `next_stored_persisted_date` has
not been assigned (as after a fresh `__init__`, whose constructed state
indeed leaves it unassigned — last conjunct), `email_report` raises
`AttributeError`, `email_msg`, which calls it, propagates that error, and
`send_email` also raises it whenever the SMTP connection step itself did not
fail first, because its exception handler catches only `SMTPException`. -/
theorem summary_report_attribute_error (r : SPESummaryReport)
    (hunset : r.next_stored_persisted_date = none) :
    r.email_report =
      Except.error (PyError.attributeError "next_stored_persisted_date") ∧
    r.email_msg =
      Except.error (PyError.attributeError "next_stored_persisted_date") ∧
    (∀ send now, r.send_email (Except.ok ()) send now =
      Except.error (PyError.attributeError "next_stored_persisted_date")) ∧
    SPESummaryReport.init.next_stored_persisted_date = none := by
  have h1 : r.email_report =
      Except.error (PyError.attributeError "next_stored_persisted_date") := by
    rw [SPESummaryReport.email_report, hunset]
  have h2 : r.email_msg =
      Except.error (PyError.attributeError "next_stored_persisted_date") := by
    rw [SPESummaryReport.email_msg, h1]
  refine ⟨h1, h2, ?_, rfl⟩
  intro send now
  rw [SPESummaryReport.send_email]
  simp only [h2]
  rfl

theorem summary_report_attribute_error_witness :
    SPESummaryReport.init.email_report =
      Except.error (PyError.attributeError "next_stored_persisted_date") ∧
    SPESummaryReport.init.email_msg =
      Except.error (PyError.attributeError "next_stored_persisted_date") ∧
    SPESummaryReport.init.send_email (Except.ok ()) (Except.ok ()) "" =
      Except.error (PyError.attributeError "next_stored_persisted_date") := by
  have h := summary_report_attribute_error SPESummaryReport.init rfl
  exact ⟨h.1, h.2.1, h.2.2.1 (Except.ok ()) ""⟩

end PE
